import Mathlib

/-!
Verification of the vcluster syncer's name translation, metadata handling,
reference extraction, API-proxy redirect table and service-CIDR discovery.

Go strings are modelled as lists of bytes (`GoStr`), matching Go's `len`,
slicing and concatenation semantics.  Go maps from string to string are
modelled as association lists; a `nil` map or `nil` pointer is an `Option`.
-/

/-- A Go string, as its byte sequence. -/
abbrev GoStr := List Nat

/-- Bytes of an ASCII string literal. -/
def gos (s : String) : GoStr := s.data.map Char.toNat

/-! ## SHA-256 (crypto/sha256), executable, over byte lists -/

/-- 2^32, the word modulus of SHA-256. -/
def w32 : Nat := 4294967296

/-- Addition modulo 2^32. -/
def add32 (a b : Nat) : Nat := (a + b) % w32

/-- Rotate a 32-bit word right by n positions. -/
def rotr32 (n x : Nat) : Nat := ((x >>> n) ||| (x <<< (32 - n))) % w32

/-- Logical right shift of a 32-bit word. -/
def shr32 (n x : Nat) : Nat := x >>> n

/-- SHA-256 Ch function. -/
def sha256Ch (e f g : Nat) : Nat := (e &&& f) ^^^ ((e ^^^ 4294967295) &&& g)

/-- SHA-256 Maj function. -/
def sha256Maj (a b c : Nat) : Nat := (a &&& b) ^^^ (a &&& c) ^^^ (b &&& c)

/-- SHA-256 big sigma 0. -/
def bsig0 (x : Nat) : Nat := rotr32 2 x ^^^ rotr32 13 x ^^^ rotr32 22 x

/-- SHA-256 big sigma 1. -/
def bsig1 (x : Nat) : Nat := rotr32 6 x ^^^ rotr32 11 x ^^^ rotr32 25 x

/-- SHA-256 small sigma 0. -/
def ssig0 (x : Nat) : Nat := rotr32 7 x ^^^ rotr32 18 x ^^^ shr32 3 x

/-- SHA-256 small sigma 1. -/
def ssig1 (x : Nat) : Nat := rotr32 17 x ^^^ rotr32 19 x ^^^ shr32 10 x

/-- The 64 SHA-256 round constants of FIPS 180-4, in decimal. -/
def sha256K : List Nat :=
  [1116352408, 1899447441, 3049323471, 3921009573,
   961987163, 1508970993, 2453635748, 2870763221,
   3624381080, 310598401, 607225278, 1426881987,
   1925078388, 2162078206, 2614888103, 3248222580,
   3835390401, 4022224774, 264347078, 604807628,
   770255983, 1249150122, 1555081692, 1996064986,
   2554220882, 2821834349, 2952996808, 3210313671,
   3336571891, 3584528711, 113926993, 338241895,
   666307205, 773529912, 1294757372, 1396182291,
   1695183700, 1986661051, 2177026350, 2456956037,
   2730485921, 2820302411, 3259730800, 3345764771,
   3516065817, 3600352804, 4094571909, 275423344,
   430227734, 506948616, 659060556, 883997877,
   958139571, 1322822218, 1537002063, 1747873779,
   1955562222, 2024104815, 2227730452, 2361852424,
   2428436474, 2756734187, 3204031479, 3329325298]

/-- The SHA-256 working state: eight 32-bit words. -/
structure Hash8 where
  a : Nat
  b : Nat
  c : Nat
  d : Nat
  e : Nat
  f : Nat
  g : Nat
  h : Nat
deriving DecidableEq

/-- The initial SHA-256 state of FIPS 180-4, in decimal. -/
def sha256H0 : Hash8 :=
  ⟨1779033703, 3144134277, 1013904242, 2773480762,
   1359893119, 2600822924, 528734635, 1541459225⟩

/-- Big-endian bytes of a 64-bit length field. -/
def lenBytes64 (n : Nat) : List Nat :=
  [n / 2^56 % 256, n / 2^48 % 256, n / 2^40 % 256, n / 2^32 % 256,
   n / 2^24 % 256, n / 2^16 % 256, n / 2^8 % 256, n % 256]

/-- SHA-256 message padding: append 0x80, zeros to 56 mod 64, then the bit length. -/
def padMessage (msg : List Nat) : List Nat :=
  msg ++ [128] ++ List.replicate ((119 - msg.length % 64) % 64) 0 ++ lenBytes64 (msg.length * 8)

/-- Group bytes into big-endian 32-bit words. -/
def toWords : List Nat → List Nat
  | a :: b :: c :: d :: rest => (a * 2^24 + b * 2^16 + c * 2^8 + d) :: toWords rest
  | _ => []

/-- Group words into 16-word blocks. -/
def toBlocks : List Nat → List (List Nat)
  | w0 :: w1 :: w2 :: w3 :: w4 :: w5 :: w6 :: w7 ::
    w8 :: w9 :: w10 :: w11 :: w12 :: w13 :: w14 :: w15 :: rest =>
    [w0, w1, w2, w3, w4, w5, w6, w7, w8, w9, w10, w11, w12, w13, w14, w15] :: toBlocks rest
  | _ => []

/-- Expand a 16-word block into the 64-word message schedule. -/
def buildSchedule (block : List Nat) : List Nat :=
  (List.range 64).foldl
    (fun ws t =>
      if t < 16 then ws ++ [block.getD t 0]
      else ws ++ [add32 (add32 (ssig1 (ws.getD (t - 2) 0)) (ws.getD (t - 7) 0))
                        (add32 (ssig0 (ws.getD (t - 15) 0)) (ws.getD (t - 16) 0))]) []

/-- One SHA-256 compression round; the pair carries (round constant, schedule word). -/
def compressRound (st : Hash8) (kw : Nat × Nat) : Hash8 :=
  let t1 := add32 (add32 (add32 st.h (bsig1 st.e)) (add32 (sha256Ch st.e st.f st.g) kw.1)) kw.2
  let t2 := add32 (bsig0 st.a) (sha256Maj st.a st.b st.c)
  ⟨add32 t1 t2, st.a, st.b, st.c, add32 st.d t1, st.e, st.f, st.g⟩

/-- Compress one 512-bit block into the running hash. -/
def compressBlock (st : Hash8) (block : List Nat) : Hash8 :=
  let r := (sha256K.zip (buildSchedule block)).foldl compressRound st
  ⟨add32 st.a r.a, add32 st.b r.b, add32 st.c r.c, add32 st.d r.d,
   add32 st.e r.e, add32 st.f r.f, add32 st.g r.g, add32 st.h r.h⟩

/-- Big-endian bytes of one 32-bit word. -/
def wordBytes (w : Nat) : List Nat := [w / 2^24 % 256, w / 2^16 % 256, w / 2^8 % 256, w % 256]

/-- SHA-256 digest (32 bytes) of a byte sequence. -/
def sha256 (msg : List Nat) : List Nat :=
  let st := (toBlocks (toWords (padMessage msg))).foldl compressBlock sha256H0
  wordBytes st.a ++ wordBytes st.b ++ wordBytes st.c ++ wordBytes st.d ++
  wordBytes st.e ++ wordBytes st.f ++ wordBytes st.g ++ wordBytes st.h

/-- One lowercase hex digit, as its ASCII byte. -/
def hexDigit (n : Nat) : Nat := if n < 10 then 48 + n else 87 + n

/-- Lowercase hex encoding of a byte sequence (hex.EncodeToString). -/
def hexEncode (bytes : List Nat) : GoStr :=
  bytes.flatMap (fun b => [hexDigit (b / 16 % 16), hexDigit (b % 16)])

/-! ## Name translation (pkg/util/translate) -/

/-- strings.Join with separator "-" (byte 45). -/
def goJoin : List GoStr → GoStr
  | [] => []
  | [x] => x
  | x :: rest => x ++ [45] ++ goJoin rest

/-- The managed-by marker label key, `vcluster.loft.sh/managed-by`. -/
def MarkerLabel : GoStr := gos "vcluster.loft.sh/managed-by"

/-- The per-instance suffix, `suffix`. -/
def Suffix : GoStr := gos "suffix"

/-- SafeConcatName: join the parts with "-"; if the result is longer than 63
bytes, keep the first 52 bytes and append "-" and the first 10 hex characters
of the SHA-256 digest of the full joined string. -/
def SafeConcatName (name : List GoStr) : GoStr :=
  let fullPath := goJoin name
  if fullPath.length > 63 then
    fullPath.take 52 ++ [45] ++ (hexEncode (sha256 fullPath)).take 10
  else
    fullPath

/-- PhysicalName: the physical name of the name / namespace resource. -/
def PhysicalName (name nspace : GoStr) : GoStr :=
  SafeConcatName [name, gos "x", nspace, gos "x", Suffix]

/-- The physical name as the spec's words state it: the dash-join when that
string has length at most 63, else the first 52 characters of the joined
string, a dash, and the first 10 hex characters of its SHA-256 digest. -/
def physicalNameSpec (name nspace : GoStr) : GoStr :=
  let joined := goJoin [name, gos "x", nspace, gos "x", Suffix]
  if joined.length ≤ 63 then joined
  else joined.take 52 ++ [45] ++ (hexEncode (sha256 joined)).take 10

/-! ## Object metadata (pkg/util/translate) -/

/-- An ownerReference entry. -/
structure OwnerReference where
  apiVersion : GoStr
  kind : GoStr
  name : GoStr
  uid : GoStr
deriving DecidableEq

/-- Kubernetes object metadata, the fields the translate package touches.
Go `nil` maps, `nil` pointers and `nil` slices of owner references are
`Option`/empty values; `creationTimestamp`'s zero value is `0`. -/
structure ObjectMeta where
  name : GoStr
  nspace : GoStr
  generateName : GoStr
  selfLink : GoStr
  uid : GoStr
  resourceVersion : GoStr
  generation : Int
  creationTimestamp : Nat
  deletionTimestamp : Option Nat
  deletionGracePeriodSeconds : Option Int
  ownerReferences : List OwnerReference
  finalizers : List GoStr
  clusterName : GoStr
  managedFields : List GoStr
  labels : Option (List (GoStr × GoStr))
  annotations : Option (List (GoStr × GoStr))
deriving DecidableEq

/-- Go map read: the value stored at `k`, or the zero value `""` when absent. -/
def goMapGet (m : List (GoStr × GoStr)) (k : GoStr) : GoStr :=
  (m.lookup k).getD []

/-- Go map write `m[k] = v`: replace the binding of `k`, or append it. -/
def goMapSet (m : List (GoStr × GoStr)) (k v : GoStr) : List (GoStr × GoStr) :=
  match m with
  | [] => [(k, v)]
  | (k', v') :: rest => if k' = k then (k, v) :: rest else (k', v') :: goMapSet rest k v

/-- ResetObjectMetadata resets the objects metadata except name, namespace
and annotations. -/
def ResetObjectMetadata (obj : ObjectMeta) : ObjectMeta :=
  { obj with
    generateName := []
    selfLink := []
    uid := []
    resourceVersion := []
    generation := 0
    creationTimestamp := 0
    deletionTimestamp := none
    deletionGracePeriodSeconds := none
    ownerReferences := []
    finalizers := []
    clusterName := []
    managedFields := []
    labels := none }

/-- The optional owning statefulset's identity (the global OwningStatefulSet
pointer, passed explicitly). -/
structure StatefulSetRef where
  name : GoStr
  uid : GoStr
deriving DecidableEq

/-- The ownerReference stamped for an owning statefulset:
apiVersion apps/v1, kind StatefulSet, its name and UID. -/
def statefulSetOwnerReference (s : StatefulSetRef) : OwnerReference :=
  ⟨gos "apps/v1", gos "StatefulSet", s.name, s.uid⟩

/-- initMetadata: reset the metadata, translate name and namespace, apply the
managed marker label, and stamp the owning statefulset when one is set. -/
def initMetadata (owningStatefulSet : Option StatefulSetRef) (targetNamespace : GoStr)
    (target : ObjectMeta) : ObjectMeta :=
  let name := target.name
  let nspace := target.nspace
  let m := ResetObjectMetadata target
  let m := { m with name := PhysicalName name nspace, nspace := targetNamespace }
  let labels := match m.labels with
    | none => []
    | some l => l
  let labels := goMapSet labels MarkerLabel Suffix
  let m := { m with labels := some labels }
  match owningStatefulSet with
  | none => m
  | some s => { m with ownerReferences := [statefulSetOwnerReference s] }

/-- SetupMetadata: deep-copy the object (the identity on this pure model) and
initialize its metadata. -/
def SetupMetadata (owningStatefulSet : Option StatefulSetRef) (targetNamespace : GoStr)
    (obj : ObjectMeta) : ObjectMeta :=
  initMetadata owningStatefulSet targetNamespace obj

/-- IsManaged: an object is managed iff its labels map carries the marker
label with the instance suffix as value (a nil labels map is never managed;
a missing key reads as `""`). -/
def IsManaged (obj : ObjectMeta) : Bool :=
  match obj.labels with
  | none => false
  | some l => goMapGet l MarkerLabel = Suffix

/-! ## Secret reference extraction (pkg/controllers/resources/pods) -/

/-- corev1.SecretKeySelector, the fields used here. -/
structure SecretKeySelector where
  name : GoStr
deriving DecidableEq

/-- corev1.EnvVarSource, the fields used here. -/
structure EnvVarSource where
  secretKeyRef : Option SecretKeySelector
deriving DecidableEq

/-- corev1.EnvVar, the fields used here. -/
structure EnvVar where
  name : GoStr
  valueFrom : Option EnvVarSource
deriving DecidableEq

/-- corev1.SecretEnvSource, the fields used here. -/
structure SecretEnvSource where
  name : GoStr
deriving DecidableEq

/-- corev1.EnvFromSource, the fields used here. -/
structure EnvFromSource where
  secretRef : Option SecretEnvSource
deriving DecidableEq

/-- corev1.Container, the fields used here. -/
structure Container where
  name : GoStr
  env : List EnvVar
  envFrom : List EnvFromSource
deriving DecidableEq

/-- corev1.EphemeralContainer, the fields used here. -/
structure EphemeralContainer where
  name : GoStr
  env : List EnvVar
  envFrom : List EnvFromSource
deriving DecidableEq

/-- corev1.LocalObjectReference. -/
structure LocalObjectReference where
  name : GoStr
deriving DecidableEq

/-- corev1.SecretVolumeSource, the fields used here. -/
structure SecretVolumeSource where
  secretName : GoStr
deriving DecidableEq

/-- corev1.Volume, the fields used here. -/
structure Volume where
  name : GoStr
  secret : Option SecretVolumeSource
deriving DecidableEq

/-- corev1.PodSpec, the fields used here. -/
structure PodSpec where
  containers : List Container
  initContainers : List Container
  ephemeralContainers : List EphemeralContainer
  imagePullSecrets : List LocalObjectReference
  volumes : List Volume
deriving DecidableEq

/-- corev1.Pod, the fields used here. -/
structure Pod where
  name : GoStr
  nspace : GoStr
  spec : PodSpec
deriving DecidableEq

/-- The byte of "/". -/
def slash : GoStr := [47]

/-- UniqueSlice's loop: skip empty strings and entries already in `keys`. -/
def uniqueSliceAux (keys : List GoStr) : List GoStr → List GoStr
  | [] => []
  | entry :: rest =>
    if entry = [] then uniqueSliceAux keys rest
    else if entry ∈ keys then uniqueSliceAux keys rest
    else entry :: uniqueSliceAux (entry :: keys) rest

/-- UniqueSlice: drop empty strings and keep the first occurrence of each
entry. -/
def UniqueSlice (stringSlice : List GoStr) : List GoStr :=
  uniqueSliceAux [] stringSlice

/-- SecretNamesFromContainer: env entries with a nonempty
valueFrom.secretKeyRef.name, then envFrom entries with a nonempty
secretRef.name, each qualified with the namespace. -/
def SecretNamesFromContainer (nspace : GoStr) (container : Container) : List GoStr :=
  let fromEnv := container.env.filterMap fun env =>
    match env.valueFrom with
    | none => none
    | some vf =>
      match vf.secretKeyRef with
      | none => none
      | some ref => if ref.name ≠ [] then some (nspace ++ slash ++ ref.name) else none
  let fromEnvFrom := container.envFrom.filterMap fun from_ =>
    match from_.secretRef with
    | none => none
    | some ref => if ref.name ≠ [] then some (nspace ++ slash ++ ref.name) else none
  fromEnv ++ fromEnvFrom

/-- SecretNamesFromEphemeralContainer: same extraction for ephemeral
containers. -/
def SecretNamesFromEphemeralContainer (nspace : GoStr) (container : EphemeralContainer) : List GoStr :=
  let fromEnv := container.env.filterMap fun env =>
    match env.valueFrom with
    | none => none
    | some vf =>
      match vf.secretKeyRef with
      | none => none
      | some ref => if ref.name ≠ [] then some (nspace ++ slash ++ ref.name) else none
  let fromEnvFrom := container.envFrom.filterMap fun from_ =>
    match from_.secretRef with
    | none => none
    | some ref => if ref.name ≠ [] then some (nspace ++ slash ++ ref.name) else none
  fromEnv ++ fromEnvFrom

/-- SecretNamesFromPod: container references (main, then init, then
ephemeral), then imagePullSecrets, then volume secret sources, deduplicated
by UniqueSlice. -/
def SecretNamesFromPod (pod : Pod) : List GoStr :=
  let secrets :=
    pod.spec.containers.flatMap (SecretNamesFromContainer pod.nspace) ++
    pod.spec.initContainers.flatMap (SecretNamesFromContainer pod.nspace) ++
    pod.spec.ephemeralContainers.flatMap (SecretNamesFromEphemeralContainer pod.nspace) ++
    pod.spec.imagePullSecrets.map (fun s => pod.nspace ++ slash ++ s.name) ++
    pod.spec.volumes.filterMap (fun v =>
      match v.secret with
      | none => none
      | some s => some (pod.nspace ++ slash ++ s.secretName))
  UniqueSlice secrets

/-! ## API proxy redirect table (cmd/vcluster server) -/

/-- schema.GroupVersionResource. -/
structure GroupVersionResource where
  group : String
  version : String
  resource : String
deriving DecidableEq

/-- delegatingauthorizer.GroupVersionResourceVerb. -/
structure GroupVersionResourceVerb where
  groupVersionResource : GroupVersionResource
  verb : String
  subResource : String
deriving DecidableEq

/-- corev1.SchemeGroupVersion.WithResource: group "", version "v1". -/
def corev1WithResource (resource : String) : GroupVersionResource :=
  ⟨"", "v1", resource⟩

/-- The redirect-resource list installed in NewServer and passed to
filters.WithRedirect. -/
def redirectResources : List GroupVersionResourceVerb :=
  [⟨corev1WithResource "nodes", "*", "proxy"⟩,
   ⟨corev1WithResource "pods", "*", "portforward"⟩,
   ⟨corev1WithResource "pods", "*", "exec"⟩,
   ⟨corev1WithResource "pods", "*", "attach"⟩,
   ⟨corev1WithResource "pods", "*", "log"⟩,
   ⟨corev1WithResource "pods", "*", "proxy"⟩,
   ⟨corev1WithResource "services", "*", "proxy"⟩]

/-! ## Service CIDR discovery (cmd/vclusterctl create) -/

/-- The error-message marker searched for in the probe's failure. -/
def errorMessageFind : GoStr := gos "provided IP is not in the valid range. The range of valid IPs is "

/-- The fallback service CIDR. -/
def fallbackCIDR : GoStr := gos "10.96.0.0/12"

/-- The cluster IP submitted by the probe service. -/
def probeClusterIP : GoStr := gos "4.4.4.4"

/-- strings.Index: byte index of the first occurrence of `sub` in the suffix
of the haystack starting `i` bytes in, or -1. -/
def goIndexFrom (sub : GoStr) : GoStr → Nat → Int
  | s, i =>
    if sub.isPrefixOf s then Int.ofNat i
    else
      match s with
      | [] => -1
      | _ :: rest => goIndexFrom sub rest (i + 1)

/-- strings.Index(s, sub). -/
def goIndex (s sub : GoStr) : Int := goIndexFrom sub s 0

/-- Is a byte ASCII whitespace (the set strings.TrimSpace strips from ASCII
strings). -/
def isGoSpace (b : Nat) : Bool := b = 9 || b = 10 || b = 11 || b = 12 || b = 13 || b = 32

/-- strings.TrimSpace on ASCII strings. -/
def trimSpace (s : GoStr) : GoStr :=
  ((s.dropWhile isGoSpace).reverse.dropWhile isGoSpace).reverse

/-- The CIDR branch of getReleaseValues: `none` models `err == nil` from the
probe creation (fall back); an error message without the marker falls back;
otherwise the trimmed remainder after the marker's first occurrence is the
CIDR. -/
def discoverServiceCIDR (probeResult : Option GoStr) : GoStr :=
  match probeResult with
  | none => fallbackCIDR
  | some errorMessage =>
    let idx := goIndex errorMessage errorMessageFind
    if idx = -1 then fallbackCIDR
    else trimSpace (errorMessage.drop (idx.toNat + errorMessageFind.length))

/-! ## Concrete instances used to exercise the definitions -/

/-- A pod whose only secret reference is an imagePullSecrets entry with an
empty name. -/
def pullSecretPod : Pod :=
  ⟨gos "pod", gos "test", ⟨[], [], [], [⟨[]⟩], []⟩⟩

/-- The pod of the TestMapping test: one main container with an env entry
drawing from secret `a`, and one volume drawing from secret `b`, in
namespace `test`. -/
def testMappingPod : Pod :=
  ⟨gos "test", gos "test",
   ⟨[⟨gos "test", [⟨gos "test", some ⟨some ⟨gos "a"⟩⟩⟩], []⟩],
    [], [], [],
    [⟨gos "test", some ⟨gos "b"⟩⟩]⟩⟩

/-- An API error message carrying the valid-range phrase and a CIDR. -/
def cidrProbeMessage : GoStr :=
  gos "provided IP is not in the valid range. The range of valid IPs is 10.0.0.0/16"

/-- A 60-byte name, long enough to force the hashed regime. -/
def longName : GoStr := List.replicate 60 97

/-! # Theorems -/

theorem sha256_length (msg : List Nat) : (sha256 msg).length = 32 := by
  simp [sha256, wordBytes]

theorem hexEncode_length (bytes : List Nat) : (hexEncode bytes).length = 2 * bytes.length := by
  induction bytes with
  | nil => rfl
  | cons b rest ih => simp [hexEncode, List.flatMap_cons] at ih ⊢; omega

theorem safeConcatName_length (parts : List GoStr) : (SafeConcatName parts).length ≤ 63 := by
  unfold SafeConcatName
  by_cases h : (goJoin parts).length > 63
  · simp only [h, if_pos]
    have h10 : ((hexEncode (sha256 (goJoin parts))).take 10).length = 10 := by
      rw [List.length_take, hexEncode_length, sha256_length]; omega
    have h52 : ((goJoin parts).take 52).length = 52 := by
      rw [List.length_take]; omega
    simp only [List.length_append, h10, h52, List.length_cons, List.length_nil]
    omega
  · simp only [h, if_neg, not_false_iff]; omega

/-- C1: For every name and namespace, PhysicalName equals the dash-join of
[name, "x", namespace, "x", suffix] when that joined string has length at
most 63, and otherwise equals the first 52 characters of the joined string
followed by "-" and the first 10 hex characters of its SHA-256 digest. -/
theorem physicalName_matches_spec (name nspace : GoStr) :
    PhysicalName name nspace = physicalNameSpec name nspace := by
  unfold PhysicalName SafeConcatName physicalNameSpec
  rcases Nat.lt_or_ge 63 (goJoin [name, gos "x", nspace, gos "x", Suffix]).length with h | h
  · simp only [Nat.lt_iff_add_one_le] at h
    simp only [if_pos (by omega : (goJoin [name, gos "x", nspace, gos "x", Suffix]).length > 63),
      if_neg (by omega : ¬ (goJoin [name, gos "x", nspace, gos "x", Suffix]).length ≤ 63)]
  · simp only [if_neg (by omega : ¬ (goJoin [name, gos "x", nspace, gos "x", Suffix]).length > 63),
      if_pos (by omega : (goJoin [name, gos "x", nspace, gos "x", Suffix]).length ≤ 63)]

/-- C9: Every PhysicalName has length at most 63 bytes, and exactly 63 in
the hashed regime, where the joined string exceeds 63 bytes. -/
theorem physicalName_length (name nspace : GoStr) :
    (PhysicalName name nspace).length ≤ 63 ∧
    ((goJoin [name, gos "x", nspace, gos "x", Suffix]).length > 63 →
      (PhysicalName name nspace).length = 63) := by
  constructor
  · exact safeConcatName_length _
  · intro h
    unfold PhysicalName SafeConcatName
    simp only [if_pos h]
    have h10 : ((hexEncode (sha256 (goJoin [name, gos "x", nspace, gos "x", Suffix]))).take 10).length = 10 := by
      rw [List.length_take, hexEncode_length, sha256_length]; omega
    have h52 : ((goJoin [name, gos "x", nspace, gos "x", Suffix]).take 52).length = 52 := by
      rw [List.length_take]; omega
    simp only [List.length_append, h10, h52, List.length_cons, List.length_nil]

set_option maxRecDepth 10000 in
/-- C9 witness: a 60-byte name with namespace "test" lands in the hashed
regime and its physical name has length exactly 63. -/
theorem physicalName_length_witness :
    (goJoin [longName, gos "x", gos "test", gos "x", Suffix]).length > 63 ∧
    (PhysicalName longName (gos "test")).length = 63 :=
  ⟨by decide, (physicalName_length longName (gos "test")).2 (by decide)⟩

/-- C2: SetupMetadata clears generateName, selfLink, UID, resourceVersion,
generation, timestamps, deletionGracePeriodSeconds, finalizers, cluster name
and managed fields; sets the labels to exactly the managed marker mapped to
the suffix; translates the name through PhysicalName; moves the object to
the target namespace; and stamps the statefulset ownerReference exactly when
one is configured. Annotations are carried over unchanged. -/
theorem setupMetadata_spec (owning : Option StatefulSetRef) (targetNamespace : GoStr)
    (obj : ObjectMeta) :
    SetupMetadata owning targetNamespace obj =
      ⟨PhysicalName obj.name obj.nspace, targetNamespace, [], [], [], [], 0, 0, none, none,
        (match owning with
         | none => []
         | some s => [statefulSetOwnerReference s]),
        [], [], [], some [(MarkerLabel, Suffix)], obj.annotations⟩ := by
  cases owning <;> rfl

/-- C8: ResetObjectMetadata is idempotent: applying it twice yields the same
object state as applying it once. -/
theorem resetObjectMetadata_idempotent (obj : ObjectMeta) :
    ResetObjectMetadata (ResetObjectMetadata obj) = ResetObjectMetadata obj := rfl

/-- C10: ResetObjectMetadata leaves name, namespace and annotations
unchanged and only clears the other metadata fields it sets. -/
theorem resetObjectMetadata_frame (obj : ObjectMeta) :
    ResetObjectMetadata obj =
      ⟨obj.name, obj.nspace, [], [], [], [], 0, 0, none, none, [], [], [], [], none,
        obj.annotations⟩ := rfl

/-- C7: IsManaged returns true iff the object's labels carry the marker
label with the instance suffix as its value; in particular it is false
whenever the labels do not include the marker label. -/
theorem isManaged_iff (obj : ObjectMeta) :
    IsManaged obj = true ↔
      ∃ l, obj.labels = some l ∧ l.lookup MarkerLabel = some Suffix := by
  cases hl : obj.labels with
  | none => simp [IsManaged, hl]
  | some l =>
    simp only [IsManaged, hl, decide_eq_true_eq]
    constructor
    · intro h
      refine ⟨l, rfl, ?_⟩
      cases hk : l.lookup MarkerLabel with
      | none =>
        rw [goMapGet, hk] at h
        simp only [Option.getD_none] at h
        exact absurd h.symm (by decide)
      | some v =>
        rw [goMapGet, hk] at h
        simp only [Option.getD_some] at h
        rw [h]
    · rintro ⟨l', hl', hk⟩
      obtain rfl : l = l' := Option.some.inj hl'
      rw [goMapGet, hk]
      rfl

theorem mem_uniqueSliceAux {x : GoStr} :
    ∀ (l keys : List GoStr), x ∈ uniqueSliceAux keys l → x ∈ l ∧ x ∉ keys ∧ x ≠ [] := by
  intro l
  induction l with
  | nil => intro keys h; simp [uniqueSliceAux] at h
  | cons entry rest ih =>
    intro keys h
    by_cases he : entry = []
    · rw [uniqueSliceAux, if_pos he] at h
      obtain ⟨h1, h2, h3⟩ := ih keys h
      exact ⟨List.mem_cons_of_mem _ h1, h2, h3⟩
    · by_cases hk : entry ∈ keys
      · rw [uniqueSliceAux, if_neg he, if_pos hk] at h
        obtain ⟨h1, h2, h3⟩ := ih keys h
        exact ⟨List.mem_cons_of_mem _ h1, h2, h3⟩
      · rw [uniqueSliceAux, if_neg he, if_neg hk] at h
        rcases List.mem_cons.1 h with rfl | h
        · exact ⟨List.mem_cons_self _ _, hk, he⟩
        · obtain ⟨h1, h2, h3⟩ := ih _ h
          exact ⟨List.mem_cons_of_mem _ h1, fun hx => h2 (List.mem_cons_of_mem _ hx), h3⟩

theorem nodup_uniqueSliceAux :
    ∀ (l keys : List GoStr), (uniqueSliceAux keys l).Nodup := by
  intro l
  induction l with
  | nil => intro keys; simp [uniqueSliceAux]
  | cons entry rest ih =>
    intro keys
    by_cases he : entry = []
    · rw [uniqueSliceAux, if_pos he]; exact ih keys
    · by_cases hk : entry ∈ keys
      · rw [uniqueSliceAux, if_neg he, if_pos hk]; exact ih keys
      · rw [uniqueSliceAux, if_neg he, if_neg hk]
        refine List.nodup_cons.2 ⟨fun hmem => ?_, ih _⟩
        exact (mem_uniqueSliceAux rest _ hmem).2.1 (List.mem_cons_self _ _)

theorem uniqueSlice_nodup (l : List GoStr) : (UniqueSlice l).Nodup :=
  nodup_uniqueSliceAux l []

theorem mem_uniqueSlice {x : GoStr} {l : List GoStr} (h : x ∈ UniqueSlice l) : x ∈ l :=
  (mem_uniqueSliceAux l [] h).1

theorem secretNamesFromContainer_shape (nspace : GoStr) (c : Container) :
    ∀ x ∈ SecretNamesFromContainer nspace c, ∃ s, s ≠ [] ∧ x = nspace ++ slash ++ s := by
  intro x hx
  simp only [SecretNamesFromContainer, List.mem_append, List.mem_filterMap] at hx
  rcases hx with ⟨env, _, henv⟩ | ⟨from_, _, hfrom⟩
  · split at henv
    · exact absurd henv (by simp)
    · rename_i vf hvf
      split at henv
      · exact absurd henv (by simp)
      · rename_i ref href
        split at henv
        · rename_i hname
          exact ⟨ref.name, hname, (Option.some.inj henv).symm⟩
        · exact absurd henv (by simp)
  · split at hfrom
    · exact absurd hfrom (by simp)
    · rename_i ref href
      split at hfrom
      · rename_i hname
        exact ⟨ref.name, hname, (Option.some.inj hfrom).symm⟩
      · exact absurd hfrom (by simp)

theorem secretNamesFromEphemeralContainer_shape (nspace : GoStr) (c : EphemeralContainer) :
    ∀ x ∈ SecretNamesFromEphemeralContainer nspace c, ∃ s, s ≠ [] ∧ x = nspace ++ slash ++ s := by
  intro x hx
  simp only [SecretNamesFromEphemeralContainer, List.mem_append, List.mem_filterMap] at hx
  rcases hx with ⟨env, _, henv⟩ | ⟨from_, _, hfrom⟩
  · split at henv
    · exact absurd henv (by simp)
    · rename_i vf hvf
      split at henv
      · exact absurd henv (by simp)
      · rename_i ref href
        split at henv
        · rename_i hname
          exact ⟨ref.name, hname, (Option.some.inj henv).symm⟩
        · exact absurd henv (by simp)
  · split at hfrom
    · exact absurd hfrom (by simp)
    · rename_i ref href
      split at hfrom
      · rename_i hname
        exact ⟨ref.name, hname, (Option.some.inj hfrom).symm⟩
      · exact absurd hfrom (by simp)

theorem secretNamesFromPod_entries_qualified (pod : Pod) :
    ∀ x ∈ SecretNamesFromPod pod, ∃ s, x = pod.nspace ++ slash ++ s := by
  intro x hx
  have hx' := mem_uniqueSlice hx
  simp only [List.mem_append, List.mem_flatMap, List.mem_map, List.mem_filterMap] at hx'
  rcases hx' with (((⟨c, _, hc⟩ | ⟨c, _, hc⟩) | ⟨c, _, hc⟩) | ⟨s, _, hs⟩) | ⟨v, _, hv⟩
  · obtain ⟨s, _, hs⟩ := secretNamesFromContainer_shape pod.nspace c x hc
    exact ⟨s, hs⟩
  · obtain ⟨s, _, hs⟩ := secretNamesFromContainer_shape pod.nspace c x hc
    exact ⟨s, hs⟩
  · obtain ⟨s, _, hs⟩ := secretNamesFromEphemeralContainer_shape pod.nspace c x hc
    exact ⟨s, hs⟩
  · exact ⟨s.name, hs.symm⟩
  · split at hv
    · exact absurd hv (by simp)
    · rename_i src hsrc
      exact ⟨src.secretName, (Option.some.inj hv).symm⟩

/-- C4 counterexample: a pod whose only reference is an imagePullSecrets
entry with an empty name yields the entry "test/", whose secret-name part
after the namespace qualifier is the empty string — so the returned list
does contain an entry with an empty secret name. -/
theorem secretNamesFromPod_empty_pull_secret :
    SecretNamesFromPod pullSecretPod = [pullSecretPod.nspace ++ slash ++ ([] : GoStr)] := by
  decide

/-- C4 (amended): SecretNamesFromPod qualifies every entry with the pod's
namespace and returns no duplicates; entries derived from container env and
envFrom references always carry a nonempty secret name (those with empty
names are skipped), but imagePullSecrets and volume secret sources are not
filtered for empty names. -/
theorem secretNamesFromPod_qualified_nodup (pod : Pod) :
    (SecretNamesFromPod pod).Nodup ∧
    (∀ x ∈ SecretNamesFromPod pod, ∃ s, x = pod.nspace ++ slash ++ s) ∧
    (∀ (nspace : GoStr) (c : Container),
      ∀ x ∈ SecretNamesFromContainer nspace c, ∃ s, s ≠ [] ∧ x = nspace ++ slash ++ s) :=
  ⟨uniqueSlice_nodup _, secretNamesFromPod_entries_qualified pod,
    fun nspace c => secretNamesFromContainer_shape nspace c⟩

/-- C4 witness: the amended theorem applied to the TestMapping pod: its
output has no duplicates and its first entry is namespace-qualified. -/
theorem secretNamesFromPod_qualified_nodup_witness :
    (SecretNamesFromPod testMappingPod).Nodup ∧
    (∃ s, gos "test/a" = testMappingPod.nspace ++ slash ++ s) :=
  ⟨(secretNamesFromPod_qualified_nodup testMappingPod).1,
    (secretNamesFromPod_qualified_nodup testMappingPod).2.1 (gos "test/a") (by decide)⟩

/-- C5: For a pod in namespace "test" whose only secret references are a
container env entry drawing from secret a and a volume drawing from secret
b, SecretNamesFromPod returns exactly the qualified entries for a and b, in
that order: container references precede imagePullSecrets entries, which
precede volume references. -/
theorem secretNamesFromPod_env_volume_order (pod : Pod)
    (_hns : pod.nspace = gos "test")
    (hc : pod.spec.containers.flatMap (SecretNamesFromContainer pod.nspace) = [gos "test/a"])
    (hi : pod.spec.initContainers.flatMap (SecretNamesFromContainer pod.nspace) = [])
    (he : pod.spec.ephemeralContainers.flatMap (SecretNamesFromEphemeralContainer pod.nspace) = [])
    (hp : pod.spec.imagePullSecrets.map (fun s => pod.nspace ++ slash ++ s.name) = [])
    (hv : pod.spec.volumes.filterMap (fun v =>
            match v.secret with
            | none => none
            | some s => some (pod.nspace ++ slash ++ s.secretName)) = [gos "test/b"]) :
    SecretNamesFromPod pod = [gos "test/a", gos "test/b"] := by
  unfold SecretNamesFromPod
  rw [hc, hi, he, hp, hv]
  decide

/-- C5 witness: the TestMapping pod satisfies the hypotheses and its secret
references come out as [test/a, test/b]. -/
theorem secretNamesFromPod_env_volume_order_witness :
    SecretNamesFromPod testMappingPod = [gos "test/a", gos "test/b"] :=
  secretNamesFromPod_env_volume_order testMappingPod (by decide) (by decide) (by decide)
    (by decide) (by decide) (by decide)

/-- C3 counterexample: the pair (nodes, exec) lies in the cross product of
{nodes, pods, services} and {proxy, portforward, exec, attach, log} but is
not in the redirect-resource list. -/
theorem redirectResources_missing_nodes_exec :
    GroupVersionResourceVerb.mk (corev1WithResource "nodes") "*" "exec" ∉ redirectResources := by
  decide

/-- C3 (amended): the redirect filter is configured with exactly seven
resource/subresource pairs — nodes/proxy, pods/portforward, pods/exec,
pods/attach, pods/log, pods/proxy and services/proxy — each under the core
v1 group with verb "*"; the full 15-pair cross product is not present. -/
theorem redirectResources_exact :
    redirectResources.map (fun r => (r.groupVersionResource.resource, r.subResource)) =
      [("nodes", "proxy"), ("pods", "portforward"), ("pods", "exec"), ("pods", "attach"),
       ("pods", "log"), ("pods", "proxy"), ("services", "proxy")] ∧
    ∀ r ∈ redirectResources,
      r.verb = "*" ∧ r.groupVersionResource.group = "" ∧ r.groupVersionResource.version = "v1" := by
  constructor
  · rfl
  · decide

/-- C3 witness: the amended theorem applied at the nodes/proxy entry. -/
theorem redirectResources_exact_witness :
    (GroupVersionResourceVerb.mk (corev1WithResource "nodes") "*" "proxy").verb = "*" ∧
    (GroupVersionResourceVerb.mk (corev1WithResource "nodes") "*" "proxy").groupVersionResource.group = "" ∧
    (GroupVersionResourceVerb.mk (corev1WithResource "nodes") "*" "proxy").groupVersionResource.version = "v1" :=
  redirectResources_exact.2 (GroupVersionResourceVerb.mk (corev1WithResource "nodes") "*" "proxy")
    (by decide)

/-- C6: the CIDR discovery of getReleaseValues: a nil probe error falls back
to 10.96.0.0/12; an error message without the valid-range phrase falls back
to 10.96.0.0/12; an error message carrying the phrase at byte index i yields
the trimmed remainder of the message after the phrase. -/
theorem discoverServiceCIDR_cases (msg : GoStr) :
    discoverServiceCIDR none = fallbackCIDR ∧
    (goIndex msg errorMessageFind = -1 → discoverServiceCIDR (some msg) = fallbackCIDR) ∧
    (∀ i : Nat, goIndex msg errorMessageFind = Int.ofNat i →
      discoverServiceCIDR (some msg) = trimSpace (msg.drop (i + errorMessageFind.length))) := by
  refine ⟨rfl, fun h => ?_, fun i h => ?_⟩
  · simp only [discoverServiceCIDR, h, if_pos]
  · rw [Int.ofNat_eq_natCast] at h
    have hne : (↑i : Int) ≠ -1 := by omega
    simp only [discoverServiceCIDR, h, if_neg hne, Int.toNat_natCast]

set_option maxRecDepth 10000 in
/-- C6 witness: a message that starts with the valid-range phrase yields the
CIDR that follows it. -/
theorem discoverServiceCIDR_cases_witness :
    goIndex cidrProbeMessage errorMessageFind = Int.ofNat 0 ∧
    discoverServiceCIDR (some cidrProbeMessage) = gos "10.0.0.0/16" :=
  ⟨by decide,
    ((discoverServiceCIDR_cases cidrProbeMessage).2.2 0 (by decide)).trans (by decide)⟩
